import Mathlib

/-!
Shallow embedding of the MCOptionPricing repository (Monte-Carlo option
pricing under geometric Brownian motion) and verification of its
specification claims.

Modelling conventions.

Numbers: Python floats are modelled by an arbitrary linear ordered field
`F`; witnesses instantiate `F := ℚ`.  `math.exp` and `math.sqrt` are
abstracted as function parameters `exp sqrt : F → F`: every statement
proved here holds for an arbitrary interpretation of those functions, in
particular for the real exponential and square root.

Randomness: each call to `random.gauss(0, 1)` returns the next element of
a stream `g : ℕ → F` of standard-normal draws; functions that consume
randomness take the current stream position and return the advanced
position, so "number of draws consumed" is an observable of the model.

Errors: Python exceptions are modelled with the `PyError` type and
`Except`; a Python function that can raise returns `Except PyError α`.

Partial-function boundaries that the spec's claims never cross (indexing
`[-1]` into an empty list, `min` of an empty sequence, division by a zero
length) are noted at each definition; there the model takes a harmless
default value where Python would raise, and every claim theorem carries
the corresponding non-emptiness hypothesis.
-/

/-- Python exception values relevant to this code base.  `statisticsError`
models `statistics.StatisticsError`, which is a subclass of `ValueError`
(an invalid-argument error). -/
inductive PyError where
  | assertionError (msg : String)
  | valueError (msg : String)
  | keyError (key : String)
  | typeError (msg : String)
  | statisticsError (msg : String)
deriving DecidableEq, Repr

/-- Enum `OptionRight` from src/utils/enums.py: members `Call` and `Put`. -/
inductive OptionRight where
  | Call
  | Put
deriving DecidableEq, Repr

/-- Enum `BarrierUpDown` from src/utils/enums.py: members `Up` and `Down`. -/
inductive BarrierUpDown where
  | Up
  | Down
deriving DecidableEq, Repr

/-- Enum `BarrierInOut` from src/utils/enums.py: members `In` and `Out`. -/
inductive BarrierInOut where
  | In
  | Out
deriving DecidableEq, Repr

/-- Attributes, other than the enum members themselves, that are present on
each of the enum classes `OptionRight`, `BarrierUpDown`, `BarrierInOut`, so
that Python's `hasattr(EnumClass, s)` returns `True` for them.  This is a
(sufficient for the claims) subset of the full attribute set of a Python
`Enum` subclass: `__members__` is the `EnumMeta` property listing the
members, `mro` is inherited from `type`, and the dunders below exist on
every class.  `hasattr` is `False` for `name` and `value` on the class
itself because `DynamicClassAttribute` raises `AttributeError` for
class-level access. -/
def enumClassExtraAttrs : List String :=
  ["__members__", "__doc__", "__module__", "__qualname__", "__name__",
   "mro", "__repr__", "__str__", "__class__", "__init__", "__new__",
   "__eq__", "__hash__"]

/-- Python `hasattr(OptionRight, s)`: true for the member names and for the
other class attributes. -/
def hasattrOptionRight (s : String) : Bool :=
  ["Call", "Put"].contains s || enumClassExtraAttrs.contains s

/-- Python `hasattr(BarrierUpDown, s)`. -/
def hasattrBarrierUpDown (s : String) : Bool :=
  ["Up", "Down"].contains s || enumClassExtraAttrs.contains s

/-- Python `hasattr(BarrierInOut, s)`. -/
def hasattrBarrierInOut (s : String) : Bool :=
  ["In", "Out"].contains s || enumClassExtraAttrs.contains s

/-- Setter `BasePayoff.option_right` (src/utils/payoff.py lines 48-61) for a
string argument: if `hasattr(OptionRight, val)` fails, raise
`ValueError(f'Invalid str ..., expected [Call, Put]')`; otherwise evaluate
`OptionRight[val]`, which is a lookup in the member map and raises
`KeyError(val)` when `val` is not a member name. -/
def setOptionRight (val : String) : Except PyError OptionRight :=
  if hasattrOptionRight val then
    match val with
    | "Call" => .ok .Call
    | "Put" => .ok .Put
    | _ => .error (.keyError val)
  else
    .error (.valueError ("Invalid str " ++ val ++ ", expected [Call, Put]"))

/-- Setter `DiscreteBarrierPayOff.barrier_updown` (src/utils/payoff.py lines
279-296) for a string argument; same shape as `setOptionRight`. -/
def setBarrierUpDown (val : String) : Except PyError BarrierUpDown :=
  if hasattrBarrierUpDown val then
    match val with
    | "Up" => .ok .Up
    | "Down" => .ok .Down
    | _ => .error (.keyError val)
  else
    .error (.valueError ("Invalid str " ++ val ++ ", expected [Up, Down]"))

/-- Setter `DiscreteBarrierPayOff.barrier_inout` (src/utils/payoff.py lines
298-315) for a string argument; same shape as `setOptionRight`. -/
def setBarrierInOut (val : String) : Except PyError BarrierInOut :=
  if hasattrBarrierInOut val then
    match val with
    | "In" => .ok .In
    | "Out" => .ok .Out
    | _ => .error (.keyError val)
  else
    .error (.valueError ("Invalid str " ++ val ++ ", expected [In, Out]"))

/-- `is_num` from src/utils/misc.py: `isinstance(val, (int, float))`.  The
model's numbers are rationals, which are numeric, so this is `true` on the
whole modelled domain. -/
def is_num (_ : ℚ) : Bool := true

/-- `is_pos` from src/utils/misc.py: `False` unless `is_num(val)` and
`val >= 0`. -/
def is_pos (val : ℚ) : Bool := is_num val && decide (0 ≤ val)

section Model

variable {F : Type} [LinearOrderedField F]

/-- `VanillaPayOff` payoff data (src/utils/payoff.py): strike `K` and an
option right. -/
structure VanillaPayOff (F : Type) where
  K : F
  option_right : OptionRight
deriving Repr

/-- `AsianArithmeticPayOff` payoff data (src/utils/payoff.py). -/
structure AsianArithmeticPayOff (F : Type) where
  K : F
  option_right : OptionRight
deriving Repr

/-- `DiscreteBarrierPayOff` payoff data (src/utils/payoff.py): strike `K`,
option right, barrier level `B`, barrier direction and activation mode. -/
structure DiscreteBarrierPayOff (F : Type) where
  K : F
  option_right : OptionRight
  B : F
  barrier_updown : BarrierUpDown
  barrier_inout : BarrierInOut
deriving Repr

/-- `BasePayoff._calculate_call` (src/utils/payoff.py lines 63-80):
`float(max(S - self.K, 0.0))`. -/
def calculate_call (K S : F) : F := max (S - K) 0

/-- `BasePayoff._calculate_put` (src/utils/payoff.py lines 81-95):
`float(max(self.K - S, 0.0))`. -/
def calculate_put (K S : F) : F := max (K - S) 0

/-- `VanillaPayOff.calculate` (src/utils/payoff.py lines 125-155): the
call/put payoff evaluated at the final price `S[-1]`.  Python raises
`IndexError` on an empty path; the model returns the payoff at the default
`0` there, and every claim about `calculate` assumes a non-empty path. -/
def VanillaPayOff.calculate (p : VanillaPayOff F) (S : List F) : F :=
  match p.option_right with
  | .Call => calculate_call p.K (S.getLastD 0)
  | .Put => calculate_put p.K (S.getLastD 0)

/-- `AsianArithmeticPayOff.calculate` (src/utils/payoff.py lines 182-208):
the call/put payoff evaluated at `sum(S) / len(S)`.  Python raises
`ZeroDivisionError` on an empty path; in the model a division by the zero
length yields `0`, and every claim about `calculate` assumes a non-empty
path. -/
def AsianArithmeticPayOff.calculate (p : AsianArithmeticPayOff F)
    (S : List F) : F :=
  let avg_sum := S.sum / (S.length : F)
  match p.option_right with
  | .Call => calculate_call p.K avg_sum
  | .Put => calculate_put p.K avg_sum

/-- Python `min` over a list of ints: for a non-empty list, the least
element; Python raises `ValueError` on an empty sequence, where the model
returns `0` (unused: every claim involving `min` is about non-empty
paths). -/
def pyMin : List ℕ → ℕ
  | [] => 0
  | x :: xs => xs.foldl Nat.min x

/-- `DiscreteBarrierPayOff.calculate` (src/utils/payoff.py lines 317-359):
heavyside indicator list `H` (`1 if B - x > 0 else 0` per point for `Up`,
`1 if x - B > 0 else 0` for `Down`), activation `1 if min(H) == 0 else 0`
for `In` and `min(H)` for `Out`, and final payoff
`activation * (call-or-put payoff at S[-1])`.  As with the other payoffs,
Python raises on an empty path (`min` of an empty sequence); the claims
assume a non-empty path. -/
def DiscreteBarrierPayOff.calculate (p : DiscreteBarrierPayOff F)
    (S : List F) : F :=
  let H : List ℕ :=
    match p.barrier_updown with
    | .Up => S.map (fun x => if p.B - x > 0 then 1 else 0)
    | .Down => S.map (fun x => if x - p.B > 0 then 1 else 0)
  let activation : ℕ :=
    match p.barrier_inout with
    | .In => if pyMin H = 0 then 1 else 0
    | .Out => pyMin H
  match p.option_right with
  | .Call => (activation : F) * calculate_call p.K (S.getLastD 0)
  | .Put => (activation : F) * calculate_put p.K (S.getLastD 0)

/-- Tagged union of the three payoff classes, as seen by code that takes an
arbitrary `BasePayoff`. -/
inductive AnyPayoff (F : Type) where
  | vanilla : VanillaPayOff F → AnyPayoff F
  | asian : AsianArithmeticPayOff F → AnyPayoff F
  | barrier : DiscreteBarrierPayOff F → AnyPayoff F

/-- Dynamic dispatch of `calculate` over the payoff family. -/
def AnyPayoff.calculate : AnyPayoff F → List F → F
  | .vanilla p, S => p.calculate S
  | .asian p, S => p.calculate S
  | .barrier p, S => p.calculate S

/-- `PathGenerator` (src/utils/path.py): spot `S`, risk-free rate `r`,
dividend yield `div`, volatility `vol`. -/
structure PathGenerator (F : Type) where
  S : F
  r : F
  div : F
  vol : F
deriving Repr

/-- Property `PathGenerator.net_r`: `r - div`. -/
def PathGenerator.net_r (p : PathGenerator F) : F := p.r - p.div

/-- `PathGenerator` construction.  The class is a `@dataclass` whose
generated `__init__` assigns the four fields and performs no validation,
so construction never raises; the `Except` codomain records that Python
construction is in principle fallible. -/
def mkPathGenerator (S r div vol : F) : Except PyError (PathGenerator F) :=
  .ok ⟨S, r, div, vol⟩

variable (exp sqrt : F → F)

/-- Time increments `dts = [T[idx + 1] - T[idx] for idx in range(len(T) - 1)]`
(src/utils/path.py line 89), written as a recursion over consecutive
elements. -/
def dts : List F → List F
  | [] => []
  | [_] => []
  | t0 :: t1 :: rest => (t1 - t0) :: dts (t1 :: rest)

/-- One loop iteration of `PathGenerator.generate` (src/utils/path.py lines
94-105): `drift = exp((net_r - (1/2)*vol**2)*dt)`,
`vol_term = exp(vol*sqrt(dt)*z)`, next price `prev * drift * vol_term`. -/
def gbmStep (P : PathGenerator F) (dt z prev : F) : F :=
  let drift := exp ((P.net_r - (1/2) * P.vol ^ 2) * dt)
  let vol_term := exp (P.vol * sqrt dt * z)
  prev * drift * vol_term

/-- The loop of `PathGenerator.generate` over the list of time increments:
from previous price `prev` and stream position `k`, produce the list of
subsequent prices and the stream position after the loop (one
`random.gauss` call, hence one position increment, per increment). -/
def gbmSteps (P : PathGenerator F) (g : ℕ → F) :
    F → ℕ → List F → List F × ℕ
  | _, k, [] => ([], k)
  | prev, k, dt :: rest =>
    let next := gbmStep exp sqrt P dt (g k) prev
    let res := gbmSteps P g next (k + 1) rest
    (next :: res.1, res.2)

/-- `PathGenerator.generate` (src/utils/path.py lines 66-106): the spot
prices list starting at `S`, plus the advanced stream position.  Python
writes `spot_prices[0] = self.S` into a zero-length list and raises
`IndexError` when `T` is empty; the model returns `[S]` there, and every
claim about `generate` assumes `len(T) >= 1`. -/
def PathGenerator.generate (P : PathGenerator F) (g : ℕ → F) (k : ℕ)
    (T : List F) : List F × ℕ :=
  let res := gbmSteps exp sqrt P g P.S k (dts T)
  (P.S :: res.1, res.2)

/-- The loop of `PathGenerator.generate_antithetic` (src/utils/path.py lines
145-163): one `random.gauss` draw `z` per increment, `a_gauss = -z`, one
shared `drift`, `vol_term` from `z` and `a_vol_term` from `-z`; both paths
step by `prev * drift * vol_term`. -/
def gbmStepsAnti (P : PathGenerator F) (g : ℕ → F) :
    F → F → ℕ → List F → List F × List F × ℕ
  | _, _, k, [] => ([], [], k)
  | prev, aprev, k, dt :: rest =>
    let z := g k
    let next := gbmStep exp sqrt P dt z prev
    let anext := gbmStep exp sqrt P dt (-z) aprev
    let res := gbmStepsAnti P g next anext (k + 1) rest
    (next :: res.1, anext :: res.2.1, res.2.2)

/-- `PathGenerator.generate_antithetic` (src/utils/path.py lines 108-165):
primary and antithetic spot-price lists, both starting at `S`
(`a_spot_prices = deepcopy(spot_prices)`), plus the advanced stream
position.  As with `generate`, Python raises on empty `T`. -/
def PathGenerator.generate_antithetic (P : PathGenerator F) (g : ℕ → F)
    (k : ℕ) (T : List F) : (List F × List F) × ℕ :=
  let res := gbmStepsAnti exp sqrt P g P.S P.S k (dts T)
  ((P.S :: res.1, P.S :: res.2.1), res.2.2)

end Model

section PathLemmas

variable {F : Type} [LinearOrderedField F] (exp sqrt : F → F)
variable (P : PathGenerator F) (g : ℕ → F)

theorem dts_length (T : List F) : (dts T).length = T.length - 1 := by
  induction T with
  | nil => rfl
  | cons t0 rest ih =>
    cases rest with
    | nil => rfl
    | cons t1 r2 => simp [dts] at ih ⊢; omega

theorem dts_getD (T : List F) :
    ∀ i, i + 1 < T.length →
      (dts T).getD i 0 = T.getD (i + 1) 0 - T.getD i 0 := by
  induction T with
  | nil => intro i h; simp at h
  | cons t0 rest ih =>
    intro i h
    cases rest with
    | nil => simp at h
    | cons t1 r2 =>
      match i with
      | 0 => simp [dts]
      | Nat.succ j =>
        have hj : j + 1 < (t1 :: r2).length := by
          simpa using Nat.lt_of_succ_lt_succ h
        simpa [dts] using ih j hj

theorem gbmSteps_length (l : List F) :
    ∀ prev k, (gbmSteps exp sqrt P g prev k l).1.length = l.length := by
  induction l with
  | nil => intro prev k; rfl
  | cons dt rest ih => intro prev k; simp [gbmSteps, ih]

theorem gbmSteps_pos (l : List F) :
    ∀ prev k, (gbmSteps exp sqrt P g prev k l).2 = k + l.length := by
  induction l with
  | nil => intro prev k; rfl
  | cons dt rest ih => intro prev k; simp [gbmSteps, ih]; omega

theorem gbmSteps_getD (l : List F) :
    ∀ prev k i, i < l.length →
      (prev :: (gbmSteps exp sqrt P g prev k l).1).getD (i + 1) 0 =
        gbmStep exp sqrt P (l.getD i 0) (g (k + i))
          ((prev :: (gbmSteps exp sqrt P g prev k l).1).getD i 0) := by
  induction l with
  | nil => intro prev k i h; simp at h
  | cons dt rest ih =>
    intro prev k i h
    match i with
    | 0 => simp [gbmSteps]
    | Nat.succ j =>
      have hj : j < rest.length := by simpa using Nat.lt_of_succ_lt_succ h
      have hidx : k + (j + 1) = (k + 1) + j := by omega
      have key := ih (gbmStep exp sqrt P dt (g k) prev) (k + 1) j hj
      rw [hidx]
      simpa [gbmSteps] using key

theorem gbmStepsAnti_lengths (l : List F) :
    ∀ prev aprev k,
      (gbmStepsAnti exp sqrt P g prev aprev k l).1.length = l.length ∧
      (gbmStepsAnti exp sqrt P g prev aprev k l).2.1.length = l.length := by
  induction l with
  | nil => intro prev aprev k; exact ⟨rfl, rfl⟩
  | cons dt rest ih =>
    intro prev aprev k
    have h := ih (gbmStep exp sqrt P dt (g k) prev)
      (gbmStep exp sqrt P dt (-(g k)) aprev) (k + 1)
    simp [gbmStepsAnti, h.1, h.2]

theorem gbmStepsAnti_pos (l : List F) :
    ∀ prev aprev k,
      (gbmStepsAnti exp sqrt P g prev aprev k l).2.2 = k + l.length := by
  induction l with
  | nil => intro prev aprev k; rfl
  | cons dt rest ih => intro prev aprev k; simp [gbmStepsAnti, ih]; omega

theorem gbmStepsAnti_getD (l : List F) :
    ∀ prev aprev k i, i < l.length →
      (prev :: (gbmStepsAnti exp sqrt P g prev aprev k l).1).getD (i + 1) 0 =
        gbmStep exp sqrt P (l.getD i 0) (g (k + i))
          ((prev :: (gbmStepsAnti exp sqrt P g prev aprev k l).1).getD i 0) ∧
      (aprev :: (gbmStepsAnti exp sqrt P g prev aprev k l).2.1).getD (i + 1) 0 =
        gbmStep exp sqrt P (l.getD i 0) (-(g (k + i)))
          ((aprev ::
            (gbmStepsAnti exp sqrt P g prev aprev k l).2.1).getD i 0) := by
  induction l with
  | nil => intro prev aprev k i h; simp at h
  | cons dt rest ih =>
    intro prev aprev k i h
    match i with
    | 0 => constructor <;> simp [gbmStepsAnti]
    | Nat.succ j =>
      have hj : j < rest.length := by simpa using Nat.lt_of_succ_lt_succ h
      have hidx : k + (j + 1) = (k + 1) + j := by omega
      have := ih (gbmStep exp sqrt P dt (g k) prev)
        (gbmStep exp sqrt P dt (-(g k)) aprev) (k + 1) j hj
      constructor
      · rw [hidx]
        simpa [gbmStepsAnti] using this.1
      · rw [hidx]
        simpa [gbmStepsAnti] using this.2

end PathLemmas

/-- C1: for every generator and every non-decreasing time sequence `T` with
`len(T) >= 1`, `generate(T)` returns a list of the same length as `T` whose
first element is `S` and which consumes one standard-normal draw per step;
for every step `i` with `dt = T[i+1] - T[i]`, the next element equals
`path[i] * exp((net_r - 0.5*vol^2)*dt) * exp(vol*sqrt(dt)*z_i)` with `z_i`
the draw consumed for that step (the exact-step GBM update). -/
theorem claim_C1_generate {F : Type} [LinearOrderedField F]
    (exp sqrt : F → F) (P : PathGenerator F) (T : List F) (g : ℕ → F)
    (k : ℕ) (hne : 1 ≤ T.length) (hmono : List.Chain' (· ≤ ·) T) :
    ((P.generate exp sqrt g k T).1.length = T.length ∧
      (P.generate exp sqrt g k T).1.getD 0 0 = P.S ∧
      (P.generate exp sqrt g k T).2 = k + (T.length - 1)) ∧
    ∀ i, i + 1 < T.length →
      (P.generate exp sqrt g k T).1.getD (i + 1) 0 =
        (P.generate exp sqrt g k T).1.getD i 0 *
          exp ((P.net_r - (1/2) * P.vol ^ 2) *
            (T.getD (i + 1) 0 - T.getD i 0)) *
          exp (P.vol * sqrt (T.getD (i + 1) 0 - T.getD i 0) * g (k + i)) := by
  refine ⟨⟨?_, ?_, ?_⟩, ?_⟩
  · simp [PathGenerator.generate, gbmSteps_length, dts_length]
    omega
  · rfl
  · simp [PathGenerator.generate, gbmSteps_pos, dts_length]
  · intro i h
    have hi : i < (dts T).length := by rw [dts_length]; omega
    have key := gbmSteps_getD exp sqrt P g (dts T) P.S k i hi
    rw [dts_getD T i h] at key
    simpa [PathGenerator.generate, gbmStep] using key

/-- Witness for C1 at a concrete generator, schedule, draw stream and
stream position: length two, first element `100`, one draw consumed. -/
theorem claim_C1_witness :
    ((1 : ℕ) ≤ ([0, 1] : List ℚ).length ∧
      List.Chain' (· ≤ ·) ([0, 1] : List ℚ)) ∧
    (((PathGenerator.mk (100 : ℚ) (1/10) (1/100) (3/10)).generate id id
        (fun _ => 1) 0 [0, 1]).1.length = 2 ∧
      ((PathGenerator.mk (100 : ℚ) (1/10) (1/100) (3/10)).generate id id
        (fun _ => 1) 0 [0, 1]).1.getD 0 0 = 100 ∧
      ((PathGenerator.mk (100 : ℚ) (1/10) (1/100) (3/10)).generate id id
        (fun _ => 1) 0 [0, 1]).2 = 1) :=
  ⟨⟨by decide, by norm_num [List.chain'_cons]⟩,
    (claim_C1_generate id id
      (PathGenerator.mk (100 : ℚ) (1/10) (1/100) (3/10))
      [0, 1] (fun _ => 1) 0 (by decide)
      (by norm_num [List.chain'_cons])).1⟩

/-- C2: for every non-decreasing time sequence `T`, `generate_antithetic(T)`
consumes exactly one standard-normal draw per step, shared by both paths:
the primary path applies `exp(vol*sqrt(dt)*z_i)` and the antithetic path
applies `exp(vol*sqrt(dt)*(-z_i))`, both multiplying by the identical
deterministic drift `exp((net_r - 0.5*vol^2)*dt)`; both paths start at `S`
and have the same length as `T`. -/
theorem claim_C2_generate_antithetic {F : Type} [LinearOrderedField F]
    (exp sqrt : F → F) (P : PathGenerator F) (T : List F) (g : ℕ → F)
    (k : ℕ) (hne : 1 ≤ T.length) (hmono : List.Chain' (· ≤ ·) T) :
    (((P.generate_antithetic exp sqrt g k T).1.1.length = T.length ∧
      (P.generate_antithetic exp sqrt g k T).1.2.length = T.length) ∧
      ((P.generate_antithetic exp sqrt g k T).1.1.getD 0 0 = P.S ∧
      (P.generate_antithetic exp sqrt g k T).1.2.getD 0 0 = P.S) ∧
      (P.generate_antithetic exp sqrt g k T).2 = k + (T.length - 1)) ∧
    ∀ i, i + 1 < T.length →
      (P.generate_antithetic exp sqrt g k T).1.1.getD (i + 1) 0 =
        (P.generate_antithetic exp sqrt g k T).1.1.getD i 0 *
          exp ((P.net_r - (1/2) * P.vol ^ 2) *
            (T.getD (i + 1) 0 - T.getD i 0)) *
          exp (P.vol * sqrt (T.getD (i + 1) 0 - T.getD i 0) * g (k + i)) ∧
      (P.generate_antithetic exp sqrt g k T).1.2.getD (i + 1) 0 =
        (P.generate_antithetic exp sqrt g k T).1.2.getD i 0 *
          exp ((P.net_r - (1/2) * P.vol ^ 2) *
            (T.getD (i + 1) 0 - T.getD i 0)) *
          exp (P.vol * sqrt (T.getD (i + 1) 0 - T.getD i 0) *
            (-(g (k + i)))) := by
  refine ⟨⟨⟨?_, ?_⟩, ⟨rfl, rfl⟩, ?_⟩, ?_⟩
  · have := gbmStepsAnti_lengths exp sqrt P g (dts T) P.S P.S k
    simp [PathGenerator.generate_antithetic, this.1, dts_length]
    omega
  · have := gbmStepsAnti_lengths exp sqrt P g (dts T) P.S P.S k
    simp [PathGenerator.generate_antithetic, this.2, dts_length]
    omega
  · simp [PathGenerator.generate_antithetic, gbmStepsAnti_pos, dts_length]
  · intro i h
    have hi : i < (dts T).length := by rw [dts_length]; omega
    have key := gbmStepsAnti_getD exp sqrt P g (dts T) P.S P.S k i hi
    rw [dts_getD T i h] at key
    constructor
    · simpa [PathGenerator.generate_antithetic, gbmStep] using key.1
    · simpa [PathGenerator.generate_antithetic, gbmStep] using key.2

/-- Witness for C2 at a concrete generator, schedule, draw stream and
stream position: both paths of length two, both starting at `100`, one
shared draw consumed. -/
theorem claim_C2_witness :
    ((1 : ℕ) ≤ ([0, 1] : List ℚ).length ∧
      List.Chain' (· ≤ ·) ([0, 1] : List ℚ)) ∧
    ((((PathGenerator.mk (100 : ℚ) (1/10) (1/100) (3/10)).generate_antithetic
        id id (fun _ => 1) 0 [0, 1]).1.1.length = 2 ∧
      ((PathGenerator.mk (100 : ℚ) (1/10) (1/100) (3/10)).generate_antithetic
        id id (fun _ => 1) 0 [0, 1]).1.2.length = 2) ∧
      (((PathGenerator.mk (100 : ℚ) (1/10) (1/100) (3/10)).generate_antithetic
        id id (fun _ => 1) 0 [0, 1]).1.1.getD 0 0 = 100 ∧
      ((PathGenerator.mk (100 : ℚ) (1/10) (1/100) (3/10)).generate_antithetic
        id id (fun _ => 1) 0 [0, 1]).1.2.getD 0 0 = 100) ∧
      ((PathGenerator.mk (100 : ℚ) (1/10) (1/100) (3/10)).generate_antithetic
        id id (fun _ => 1) 0 [0, 1]).2 = 1) :=
  ⟨⟨by decide, by norm_num [List.chain'_cons]⟩,
    (claim_C2_generate_antithetic id id
      (PathGenerator.mk (100 : ℚ) (1/10) (1/100) (3/10))
      [0, 1] (fun _ => 1) 0 (by decide)
      (by norm_num [List.chain'_cons])).1⟩

/-- C5: for every non-empty path, `DiscreteBarrierPayOff.calculate` computes
per-point indicators (`1 if B - x > 0 else 0` for `Up`, `1 if x - B > 0
else 0` for `Down`), activation `min(indicators)` for `Out` and
`1 if min(indicators) == 0 else 0` for `In`, and returns activation times
the floored call-or-put payoff at the terminal price; with `K=100`, `Call`,
`B=90`, `Down`, `Out`: `calculate([100.,110.,120.]) == 20.0` and
`calculate([100.,110.,120.,80.,110.]) == 0.0`. -/
theorem claim_C5_barrier :
    (∀ (F : Type) [inst : LinearOrderedField F] (p : DiscreteBarrierPayOff F)
        (S : List F), S ≠ [] →
      p.calculate S =
        ((match p.barrier_inout with
          | .In =>
            if pyMin (S.map (fun x =>
                match p.barrier_updown with
                | .Up => if p.B - x > 0 then 1 else 0
                | .Down => if x - p.B > 0 then 1 else 0)) = 0
            then 1 else 0
          | .Out =>
            pyMin (S.map (fun x =>
              match p.barrier_updown with
              | .Up => if p.B - x > 0 then 1 else 0
              | .Down => if x - p.B > 0 then 1 else 0)) : ℕ) : F) *
        (match p.option_right with
         | .Call => max (S.getLastD 0 - p.K) 0
         | .Put => max (p.K - S.getLastD 0) 0)) ∧
    (DiscreteBarrierPayOff.mk (100 : ℚ) .Call 90 .Down .Out).calculate
      [100, 110, 120] = 20 ∧
    (DiscreteBarrierPayOff.mk (100 : ℚ) .Call 90 .Down .Out).calculate
      [100, 110, 120, 80, 110] = 0 := by
  refine ⟨?_,
    by norm_num [DiscreteBarrierPayOff.calculate, calculate_call, pyMin],
    by norm_num [DiscreteBarrierPayOff.calculate, calculate_call, pyMin]⟩
  intro F inst p S hS
  cases hud : p.barrier_updown <;> cases hio : p.barrier_inout <;>
    cases hor : p.option_right <;>
      simp [DiscreteBarrierPayOff.calculate, calculate_call, calculate_put,
        hud, hio, hor]

/-- Witness for C5's quantified part at a concrete barrier payoff and
path. -/
theorem claim_C5_witness :
    (([100, 110, 120] : List ℚ) ≠ []) ∧
    (DiscreteBarrierPayOff.mk (100 : ℚ) .Call 90 .Down .Out).calculate
      [100, 110, 120] =
      ((match (DiscreteBarrierPayOff.mk (100 : ℚ) .Call 90 .Down
          .Out).barrier_inout with
        | .In =>
          if pyMin (([100, 110, 120] : List ℚ).map (fun x =>
              match (DiscreteBarrierPayOff.mk (100 : ℚ) .Call 90 .Down
                .Out).barrier_updown with
              | .Up => if (DiscreteBarrierPayOff.mk (100 : ℚ) .Call 90 .Down
                  .Out).B - x > 0 then 1 else 0
              | .Down => if x - (DiscreteBarrierPayOff.mk (100 : ℚ) .Call 90
                  .Down .Out).B > 0 then 1 else 0)) = 0
          then 1 else 0
        | .Out =>
          pyMin (([100, 110, 120] : List ℚ).map (fun x =>
            match (DiscreteBarrierPayOff.mk (100 : ℚ) .Call 90 .Down
              .Out).barrier_updown with
            | .Up => if (DiscreteBarrierPayOff.mk (100 : ℚ) .Call 90 .Down
                .Out).B - x > 0 then 1 else 0
            | .Down => if x - (DiscreteBarrierPayOff.mk (100 : ℚ) .Call 90
                .Down .Out).B > 0 then 1 else 0)) : ℕ) : ℚ) *
      (match (DiscreteBarrierPayOff.mk (100 : ℚ) .Call 90 .Down
          .Out).option_right with
       | .Call => max (([100, 110, 120] : List ℚ).getLastD 0 -
           (DiscreteBarrierPayOff.mk (100 : ℚ) .Call 90 .Down .Out).K) 0
       | .Put => max ((DiscreteBarrierPayOff.mk (100 : ℚ) .Call 90 .Down
           .Out).K - ([100, 110, 120] : List ℚ).getLastD 0) 0) :=
  ⟨by simp,
    claim_C5_barrier.1 ℚ (DiscreteBarrierPayOff.mk 100 .Call 90 .Down .Out)
      [100, 110, 120] (by simp)⟩

/-- C7 (code behaviour at the failing input): the member-name labels set the
enum values, a plain unrecognized label fails with the `ValueError` naming
the allowed set, but a label that collides with an attribute of the enum
class, such as `__members__`, passes the `hasattr` guard and fails in the
`EnumClass[val]` lookup with a `KeyError` that names no allowed set — for
all three label kinds. -/
theorem claim_C7_hasattr_bug :
    setOptionRight "Call" = .ok .Call ∧
    setOptionRight "Put" = .ok .Put ∧
    setOptionRight "call" =
      .error (.valueError "Invalid str call, expected [Call, Put]") ∧
    setOptionRight "__members__" = .error (.keyError "__members__") ∧
    setBarrierUpDown "__members__" = .error (.keyError "__members__") ∧
    setBarrierInOut "__members__" = .error (.keyError "__members__") := by
  exact ⟨rfl, rfl, rfl, rfl, rfl, rfl⟩

/-- C8: for every payoff object of the three families and every non-empty
price path, `calculate(path)` is non-negative: the call/put payoff is
floored at zero before any activation scaling. -/
theorem claim_C8_nonneg :
    ∀ (F : Type) [inst : LinearOrderedField F] (pay : AnyPayoff F)
      (S : List F), S ≠ [] → 0 ≤ pay.calculate S := by
  intro F inst pay S hS
  cases pay with
  | vanilla p =>
    cases h : p.option_right <;>
      simp [AnyPayoff.calculate, VanillaPayOff.calculate, h,
        calculate_call, calculate_put, le_max_right]
  | asian p =>
    cases h : p.option_right <;>
      simp [AnyPayoff.calculate, AsianArithmeticPayOff.calculate, h,
        calculate_call, calculate_put, le_max_right]
  | barrier p =>
    cases hor : p.option_right <;>
      · simp only [AnyPayoff.calculate, DiscreteBarrierPayOff.calculate,
          hor, calculate_call, calculate_put]
        exact mul_nonneg (Nat.cast_nonneg _) (le_max_right _ _)

/-- Witness for C8 at a concrete payoff and path. -/
theorem claim_C8_witness :
    (([160] : List ℚ) ≠ []) ∧
    0 ≤ (AnyPayoff.vanilla (VanillaPayOff.mk (150 : ℚ) .Call)).calculate
      [160] :=
  ⟨by simp,
    claim_C8_nonneg ℚ (AnyPayoff.vanilla (VanillaPayOff.mk 150 .Call))
      [160] (by simp)⟩

/-- C10: `PathGenerator` construction performs no validation: it succeeds
for every choice of market parameters, in particular on values that the
repository's own `is_pos` check rejects, and simply stores the fields. -/
theorem claim_C10_no_validation :
    ∀ (S r div vol : ℚ), is_pos S = false ∨ is_pos vol = false →
      mkPathGenerator S r div vol = .ok (PathGenerator.mk S r div vol) :=
  fun _ _ _ _ _ => rfl

/-- Witness for C10: a spot and volatility that fail `is_pos` are accepted
unchanged. -/
theorem claim_C10_witness :
    (is_pos (-1 : ℚ) = false ∨ is_pos (-1 : ℚ) = false) ∧
    mkPathGenerator (-1 : ℚ) 0 0 (-1) =
      .ok (PathGenerator.mk (-1 : ℚ) 0 0 (-1)) :=
  ⟨Or.inl (by norm_num [is_pos, is_num]),
    claim_C10_no_validation (-1) 0 0 (-1)
      (Or.inl (by norm_num [is_pos, is_num]))⟩

section Engine

variable {F : Type} [LinearOrderedField F] (exp sqrt : F → F)

/-- `MCResult` (src/utils/engine.py): price and MC standard error. -/
structure MCResult (F : Type) where
  price : F
  stderr : F
deriving Repr

/-- `statistics.mean`: the exact arithmetic mean `sum / n` (the Python
implementation computes it with exact fraction arithmetic before the final
float conversion).  Python raises on an empty list; a zero length divides
to `0` in the model, and the engine only calls this on a list of length
`>= 1`. -/
def mean (l : List F) : F := l.sum / (l.length : F)

/-- `statistics.stdev(data, xbar)`: raises `StatisticsError` (a `ValueError`
subclass) for fewer than two data points, otherwise the square root of the
sum of squared deviations from the exact mean divided by `n - 1`.  (The
Python implementation subtracts a correction term `(Σ(x-c))²/n` from
`Σ(x-c)²`, which by the textbook identity makes the result exactly
`Σ(x-μ)²` for the exact mean `μ`; the engine passes `xbar = mean(data)`,
which in the model's exact arithmetic is that mean.) -/
def stdev (l : List F) (xbar : F) : Except PyError F :=
  if l.length < 2 then
    .error (.statisticsError "stdev requires at least two data points")
  else
    .ok (sqrt ((l.map (fun x => (x - xbar) ^ 2)).sum /
      ((l.length - 1 : ℕ) : F)))

/-- `PricingEngine` (src/utils/engine.py): a payoff object and a path
generator. -/
structure PricingEngine (F : Type) where
  payoff : AnyPayoff F
  path : PathGenerator F

/-- One iteration of the trial loop of `PricingEngine.price`
(src/utils/engine.py lines 114-127): generate one path (or one antithetic
pair sharing draws), evaluate the payoff, and average the two payoffs in
the antithetic case; returns the trial's payoff and the advanced stream
position. -/
def singleTrial (E : PricingEngine F) (T : List F) (anti : Bool)
    (g : ℕ → F) (k : ℕ) : F × ℕ :=
  if anti then
    let res := E.path.generate_antithetic exp sqrt g k T
    ((E.payoff.calculate res.1.1 + E.payoff.calculate res.1.2) / 2, res.2)
  else
    let res := E.path.generate exp sqrt g k T
    (E.payoff.calculate res.1, res.2)

/-- The trial loop `for idx in range(ntrials)` of `PricingEngine.price`:
the list of per-trial payoffs in loop order, plus the stream position after
the loop. -/
def runTrials (E : PricingEngine F) (T : List F) (anti : Bool)
    (g : ℕ → F) : ℕ → ℕ → List F × ℕ
  | 0, k => ([], k)
  | n + 1, k =>
    let tr := singleTrial exp sqrt E T anti g k
    let rest := runTrials E T anti g n tr.2
    (tr.1 :: rest.1, rest.2)

/-- `PricingEngine.price` (src/utils/engine.py lines 73-138): raise
`AssertionError` when `ntrials < len(T)`; otherwise reassign
`ntrials = ntrials // len(T)`, run that many trials, discount every trial
payoff by the flat factor `exp(-net_r * (T[-1] - T[0]))`, and return the
sample mean together with `stdev(dis_payoffs, mean) / sqrt(ntrials)`.
Python raises `ZeroDivisionError` on an empty `T` (`ntrials // 0`); the
claims assume `len(T) >= 1`. -/
def PricingEngine.price (E : PricingEngine F) (T : List F) (ntrials : ℕ)
    (anti : Bool) (g : ℕ → F) (k : ℕ) :
    Except PyError (MCResult F × ℕ) :=
  if ntrials < T.length then
    .error (.assertionError
      "Number of trials cannot be less than the number of setting dates!")
  else
    let m := ntrials / T.length
    let res := runTrials exp sqrt E T anti g m k
    let df := exp (-E.path.net_r * (T.getLastD 0 - T.headD 0))
    let dis_payoffs := res.1.map (fun x => x * df)
    let exp_payoff := mean dis_payoffs
    match stdev sqrt dis_payoffs exp_payoff with
    | .error e => .error e
    | .ok sd => .ok (MCResult.mk exp_payoff (sd / sqrt (m : F)), res.2)

end Engine

section EngineLemmas

variable {F : Type} [LinearOrderedField F] (exp sqrt : F → F)
variable (E : PricingEngine F) (T : List F) (anti : Bool) (g : ℕ → F)

theorem singleTrial_pos (k : ℕ) :
    (singleTrial exp sqrt E T anti g k).2 = k + (dts T).length := by
  cases anti <;>
    simp [singleTrial, PathGenerator.generate,
      PathGenerator.generate_antithetic, gbmSteps_pos, gbmStepsAnti_pos]

theorem singleTrial_fst (k : ℕ) :
    (singleTrial exp sqrt E T anti g k).1 =
      if anti then
        (E.payoff.calculate
            (E.path.generate_antithetic exp sqrt g k T).1.1 +
          E.payoff.calculate
            (E.path.generate_antithetic exp sqrt g k T).1.2) / 2
      else E.payoff.calculate (E.path.generate exp sqrt g k T).1 := by
  cases anti <;> simp [singleTrial]

theorem runTrials_closed (m : ℕ) : ∀ k : ℕ,
    (runTrials exp sqrt E T anti g m k).1 =
      (List.range m).map (fun j =>
        (singleTrial exp sqrt E T anti g (k + j * (dts T).length)).1) ∧
    (runTrials exp sqrt E T anti g m k).2 = k + m * (dts T).length := by
  induction m with
  | zero => intro k; simp [runTrials]
  | succ n ih =>
    intro k
    have h1 := (ih (k + (dts T).length)).1
    have h2 := (ih (k + (dts T).length)).2
    constructor
    · simp only [runTrials, singleTrial_pos, h1, List.range_succ_eq_map,
        List.map_cons, List.map_map]
      congr 1
      · simp
      · apply List.map_congr_left
        intro j hj
        have : k + (dts T).length + j * (dts T).length =
            k + (j + 1) * (dts T).length := by ring
        simp [Function.comp, this]
    · simp only [runTrials, singleTrial_pos, h2]
      ring

end EngineLemmas

section PriceLemmas

variable {F : Type} [LinearOrderedField F] (exp sqrt : F → F)
variable (E : PricingEngine F) (T : List F) (anti : Bool) (g : ℕ → F)

/-- The closed form of the engine's local `dis_payoffs`: the per-trial
payoffs, trial `j` starting at stream position `k + j * (len(T) - 1)`,
each multiplied by the flat discount factor
`exp(-net_r * (T[-1] - T[0]))`. -/
def dis_payoffs (k m : ℕ) : List F :=
  ((List.range m).map (fun j =>
    (singleTrial exp sqrt E T anti g (k + j * (T.length - 1))).1)).map
    (fun x => x * exp (-E.path.net_r * (T.getLastD 0 - T.headD 0)))

theorem dis_payoffs_length (k m : ℕ) :
    (dis_payoffs exp sqrt E T anti g k m).length = m := by
  simp [dis_payoffs]

/-- Closed form of a successful `price` call: with `ntrials >= len(T)` and
effective trial count `m = ntrials // len(T)` at least `2`, the call
returns the mean of the `m` discounted trial payoffs, the unbiased sample
standard deviation of those payoffs divided by `sqrt(m)`, and the stream
position advanced by `m` draws per step. -/
theorem price_eq (k ntrials : ℕ) (h2 : T.length ≤ ntrials)
    (hm : 2 ≤ ntrials / T.length) :
    E.price exp sqrt T ntrials anti g k =
      .ok (MCResult.mk
        (mean (dis_payoffs exp sqrt E T anti g k (ntrials / T.length)))
        (sqrt (((dis_payoffs exp sqrt E T anti g k
            (ntrials / T.length)).map (fun x =>
            (x - mean (dis_payoffs exp sqrt E T anti g k
              (ntrials / T.length))) ^ 2)).sum /
          ((ntrials / T.length - 1 : ℕ) : F)) /
          sqrt ((ntrials / T.length : ℕ) : F)),
        k + (ntrials / T.length) * (T.length - 1)) := by
  have hnot : ¬ ntrials < T.length := Nat.not_lt.mpr h2
  have hc := runTrials_closed exp sqrt E T anti g (ntrials / T.length) k
  have hdis : (runTrials exp sqrt E T anti g (ntrials / T.length) k).1.map
      (fun x => x * exp (-E.path.net_r * (T.getLastD 0 - T.headD 0))) =
      dis_payoffs exp sqrt E T anti g k (ntrials / T.length) := by
    rw [hc.1, dis_payoffs, dts_length]
  have hlen : (dis_payoffs exp sqrt E T anti g k
      (ntrials / T.length)).length = ntrials / T.length :=
    dis_payoffs_length exp sqrt E T anti g k (ntrials / T.length)
  have hnot2 : ¬ (dis_payoffs exp sqrt E T anti g k
      (ntrials / T.length)).length < 2 := by rw [hlen]; omega
  simp only [PricingEngine.price, stdev]
  rw [if_neg hnot]
  simp only [hdis, hc.2, hlen, dts_length]
  rw [if_neg (by omega : ¬ ntrials / T.length < 2)]

end PriceLemmas

/-- C3: under the preconditions (`len(T) >= 1`, `n_trials >= len(T)`, and an
effective trial count of at least two so that a result is returned), the
engine simulates exactly `m = n_trials // len(T)` trials; trial `j`'s
payoff is the payoff of one generated path when antithetic is disabled and
the arithmetic average of the primary and antithetic payoffs when enabled;
every trial payoff is multiplied by the single flat discount factor
`exp(-net_r * (T[-1] - T[0]))`; and the returned price is the sample mean
of these `m` discounted payoffs. -/
theorem claim_C3_price {F : Type} [LinearOrderedField F] (exp sqrt : F → F)
    (E : PricingEngine F) (T : List F) (ntrials : ℕ) (anti : Bool)
    (g : ℕ → F) (k : ℕ) (h1 : 1 ≤ T.length) (h2 : T.length ≤ ntrials)
    (hm : 2 ≤ ntrials / T.length) :
    ∃ sd : F,
      E.price exp sqrt T ntrials anti g k =
        .ok (MCResult.mk
          (mean ((List.range (ntrials / T.length)).map (fun j =>
            (if anti then
              (E.payoff.calculate ((E.path.generate_antithetic exp sqrt g
                  (k + j * (T.length - 1)) T).1.1) +
                E.payoff.calculate ((E.path.generate_antithetic exp sqrt g
                  (k + j * (T.length - 1)) T).1.2)) / 2
            else
              E.payoff.calculate ((E.path.generate exp sqrt g
                (k + j * (T.length - 1)) T).1)) *
            exp (-E.path.net_r * (T.getLastD 0 - T.headD 0))))) sd,
          k + (ntrials / T.length) * (T.length - 1)) := by
  have hfuse : dis_payoffs exp sqrt E T anti g k (ntrials / T.length) =
      (List.range (ntrials / T.length)).map (fun j =>
        (if anti then
          (E.payoff.calculate ((E.path.generate_antithetic exp sqrt g
              (k + j * (T.length - 1)) T).1.1) +
            E.payoff.calculate ((E.path.generate_antithetic exp sqrt g
              (k + j * (T.length - 1)) T).1.2)) / 2
        else
          E.payoff.calculate ((E.path.generate exp sqrt g
            (k + j * (T.length - 1)) T).1)) *
        exp (-E.path.net_r * (T.getLastD 0 - T.headD 0))) := by
    simp [dis_payoffs, List.map_map, Function.comp, singleTrial_fst]
  refine ⟨sqrt (((dis_payoffs exp sqrt E T anti g k
      (ntrials / T.length)).map (fun x =>
      (x - mean (dis_payoffs exp sqrt E T anti g k
        (ntrials / T.length))) ^ 2)).sum /
    ((ntrials / T.length - 1 : ℕ) : F)) /
    sqrt ((ntrials / T.length : ℕ) : F), ?_⟩
  rw [price_eq exp sqrt E T anti g k ntrials h2 hm, hfuse]

/-- Witness for C3 at a concrete engine, schedule, trial count, draw stream
and stream position (antithetic disabled). -/
theorem claim_C3_witness :
    ((1 : ℕ) ≤ ([0, 1] : List ℚ).length ∧
      ([0, 1] : List ℚ).length ≤ 4 ∧ 2 ≤ 4 / ([0, 1] : List ℚ).length) ∧
    ∃ sd : ℚ,
      (PricingEngine.mk (AnyPayoff.vanilla (VanillaPayOff.mk 100 .Call))
        (PathGenerator.mk (100 : ℚ) (1/10) (1/100) (3/10))).price id id
          [0, 1] 4 false (fun _ => 1) 0 =
        .ok (MCResult.mk
          (mean ((List.range (4 / ([0, 1] : List ℚ).length)).map (fun j =>
            (if false then
              ((PricingEngine.mk (AnyPayoff.vanilla
                  (VanillaPayOff.mk 100 .Call))
                (PathGenerator.mk (100 : ℚ) (1/10) (1/100)
                  (3/10))).payoff.calculate
                (((PricingEngine.mk (AnyPayoff.vanilla
                    (VanillaPayOff.mk 100 .Call))
                  (PathGenerator.mk (100 : ℚ) (1/10) (1/100)
                    (3/10))).path.generate_antithetic id id (fun _ => 1)
                  (0 + j * (([0, 1] : List ℚ).length - 1)) [0, 1]).1.1) +
                (PricingEngine.mk (AnyPayoff.vanilla
                  (VanillaPayOff.mk 100 .Call))
                  (PathGenerator.mk (100 : ℚ) (1/10) (1/100)
                    (3/10))).payoff.calculate
                (((PricingEngine.mk (AnyPayoff.vanilla
                    (VanillaPayOff.mk 100 .Call))
                  (PathGenerator.mk (100 : ℚ) (1/10) (1/100)
                    (3/10))).path.generate_antithetic id id (fun _ => 1)
                  (0 + j * (([0, 1] : List ℚ).length - 1)) [0, 1]).1.2)) / 2
            else
              (PricingEngine.mk (AnyPayoff.vanilla
                (VanillaPayOff.mk 100 .Call))
                (PathGenerator.mk (100 : ℚ) (1/10) (1/100)
                  (3/10))).payoff.calculate
              (((PricingEngine.mk (AnyPayoff.vanilla
                  (VanillaPayOff.mk 100 .Call))
                (PathGenerator.mk (100 : ℚ) (1/10) (1/100)
                  (3/10))).path.generate id id (fun _ => 1)
                (0 + j * (([0, 1] : List ℚ).length - 1)) [0, 1]).1)) *
            id (-(PricingEngine.mk (AnyPayoff.vanilla
              (VanillaPayOff.mk 100 .Call))
              (PathGenerator.mk (100 : ℚ) (1/10) (1/100)
                (3/10))).path.net_r *
              (([0, 1] : List ℚ).getLastD 0 -
                ([0, 1] : List ℚ).headD 0))))) sd,
          0 + (4 / ([0, 1] : List ℚ).length) *
            (([0, 1] : List ℚ).length - 1)) :=
  ⟨⟨by decide, by decide, by decide⟩,
    claim_C3_price id id
      (PricingEngine.mk (AnyPayoff.vanilla (VanillaPayOff.mk 100 .Call))
        (PathGenerator.mk (100 : ℚ) (1/10) (1/100) (3/10)))
      [0, 1] 4 false (fun _ => 1) 0 (by decide) (by decide) (by decide)⟩

/-- C4: with the preconditions `len(T) >= 1` and `n_trials >= len(T)` and
effective trial count `m = n_trials // len(T)`: when `m >= 2` the returned
standard error is the unbiased sample standard deviation of the `m`
discounted payoffs (sum of squared deviations divided by `m - 1`, under
the square root) divided by `sqrt(m)`; when `m < 2` the call fails with
`StatisticsError`, a `ValueError` (invalid-argument) subclass, rather than
dividing by zero or returning a number. -/
theorem claim_C4_stderr {F : Type} [LinearOrderedField F]
    (exp sqrt : F → F) (E : PricingEngine F) (T : List F) (ntrials : ℕ)
    (anti : Bool) (g : ℕ → F) (k : ℕ)
    (h1 : 1 ≤ T.length) (h2 : T.length ≤ ntrials) :
    (2 ≤ ntrials / T.length →
      E.price exp sqrt T ntrials anti g k =
        .ok (MCResult.mk
          (mean (dis_payoffs exp sqrt E T anti g k (ntrials / T.length)))
          (sqrt (((dis_payoffs exp sqrt E T anti g k
              (ntrials / T.length)).map (fun x =>
              (x - mean (dis_payoffs exp sqrt E T anti g k
                (ntrials / T.length))) ^ 2)).sum /
            ((ntrials / T.length - 1 : ℕ) : F)) /
            sqrt ((ntrials / T.length : ℕ) : F)),
          k + (ntrials / T.length) * (T.length - 1))) ∧
    (ntrials / T.length < 2 →
      E.price exp sqrt T ntrials anti g k =
        .error (.statisticsError
          "stdev requires at least two data points")) := by
  constructor
  · intro hm
    exact price_eq exp sqrt E T anti g k ntrials h2 hm
  · intro hlt
    have hnot : ¬ ntrials < T.length := Nat.not_lt.mpr h2
    have hc := runTrials_closed exp sqrt E T anti g (ntrials / T.length) k
    have hlen : (runTrials exp sqrt E T anti g
        (ntrials / T.length) k).1.length = ntrials / T.length := by
      rw [hc.1]; simp
    have hmap : (List.map
        (fun x => x * exp (-E.path.net_r * (T.getLastD 0 - T.headD 0)))
        (runTrials exp sqrt E T anti g
          (ntrials / T.length) k).1).length < 2 := by
      rw [List.length_map, hlen]; omega
    simp only [PricingEngine.price, stdev]
    rw [if_neg hnot, if_pos hmap]

/-- Witness for C4 at a concrete engine and schedule: with `T = [0, 1]` the
`m >= 2` branch applies for `n_trials = 4` (both implications are
instantiated at the same call; the second is vacuous there since
`m = 2`). -/
theorem claim_C4_witness :
    ((1 : ℕ) ≤ ([0, 1] : List ℚ).length ∧
      ([0, 1] : List ℚ).length ≤ 4) ∧
    ((2 ≤ 4 / ([0, 1] : List ℚ).length →
      (PricingEngine.mk (AnyPayoff.vanilla (VanillaPayOff.mk 100 .Call))
        (PathGenerator.mk (100 : ℚ) (1/10) (1/100) (3/10))).price id id
          [0, 1] 4 true (fun _ => 1) 0 =
        .ok (MCResult.mk
          (mean (dis_payoffs id id
            (PricingEngine.mk (AnyPayoff.vanilla (VanillaPayOff.mk 100 .Call))
              (PathGenerator.mk (100 : ℚ) (1/10) (1/100) (3/10)))
            [0, 1] true (fun _ => 1) 0 (4 / ([0, 1] : List ℚ).length)))
          (id (((dis_payoffs id id
              (PricingEngine.mk (AnyPayoff.vanilla
                (VanillaPayOff.mk 100 .Call))
                (PathGenerator.mk (100 : ℚ) (1/10) (1/100) (3/10)))
              [0, 1] true (fun _ => 1) 0
              (4 / ([0, 1] : List ℚ).length)).map (fun x =>
              (x - mean (dis_payoffs id id
                (PricingEngine.mk (AnyPayoff.vanilla
                  (VanillaPayOff.mk 100 .Call))
                  (PathGenerator.mk (100 : ℚ) (1/10) (1/100) (3/10)))
                [0, 1] true (fun _ => 1) 0
                (4 / ([0, 1] : List ℚ).length))) ^ 2)).sum /
            ((4 / ([0, 1] : List ℚ).length - 1 : ℕ) : ℚ)) /
            id ((4 / ([0, 1] : List ℚ).length : ℕ) : ℚ)),
          0 + (4 / ([0, 1] : List ℚ).length) *
            (([0, 1] : List ℚ).length - 1))) ∧
      (4 / ([0, 1] : List ℚ).length < 2 →
        (PricingEngine.mk (AnyPayoff.vanilla (VanillaPayOff.mk 100 .Call))
          (PathGenerator.mk (100 : ℚ) (1/10) (1/100) (3/10))).price id id
            [0, 1] 4 true (fun _ => 1) 0 =
          .error (.statisticsError
            "stdev requires at least two data points"))) :=
  ⟨⟨by decide, by decide⟩,
    claim_C4_stderr id id
      (PricingEngine.mk (AnyPayoff.vanilla (VanillaPayOff.mk 100 .Call))
        (PathGenerator.mk (100 : ℚ) (1/10) (1/100) (3/10)))
      [0, 1] 4 true (fun _ => 1) 0 (by decide) (by decide)⟩

/-- C6: for every schedule `T` and every positive trial count below
`len(T)`, `price` fails with the invalid-argument `AssertionError` raised
by the engine's precondition check and returns no result. -/
theorem claim_C6_trials_below_schedule {F : Type} [LinearOrderedField F]
    (exp sqrt : F → F) (E : PricingEngine F) (T : List F) (ntrials : ℕ)
    (anti : Bool) (g : ℕ → F) (k : ℕ)
    (hpos : 0 < ntrials) (h : ntrials < T.length) :
    E.price exp sqrt T ntrials anti g k =
      .error (.assertionError
        "Number of trials cannot be less than the number of setting dates!") := by
  simp only [PricingEngine.price]
  rw [if_pos h]

/-- Witness for C6: one trial against a three-date schedule fails. -/
theorem claim_C6_witness :
    ((0 : ℕ) < 1 ∧ 1 < ([0, 1, 2] : List ℚ).length) ∧
    (PricingEngine.mk (AnyPayoff.vanilla (VanillaPayOff.mk 100 .Call))
      (PathGenerator.mk (100 : ℚ) (1/10) (1/100) (3/10))).price id id
        [0, 1, 2] 1 true (fun _ => 1) 0 =
      .error (.assertionError
        "Number of trials cannot be less than the number of setting dates!") :=
  ⟨⟨by decide, by decide⟩,
    claim_C6_trials_below_schedule id id
      (PricingEngine.mk (AnyPayoff.vanilla (VanillaPayOff.mk 100 .Call))
        (PathGenerator.mk (100 : ℚ) (1/10) (1/100) (3/10)))
      [0, 1, 2] 1 true (fun _ => 1) 0 (by decide) (by decide)⟩

section Determinism

variable {F : Type} [LinearOrderedField F] (exp sqrt : F → F)
variable (P : PathGenerator F) (g1 g2 : ℕ → F)

theorem gbmSteps_congr (l : List F) :
    ∀ prev k, (∀ i, i < l.length → g1 (k + i) = g2 (k + i)) →
      gbmSteps exp sqrt P g1 prev k l = gbmSteps exp sqrt P g2 prev k l := by
  induction l with
  | nil => intro prev k h; rfl
  | cons dt rest ih =>
    intro prev k h
    have h0 : g1 k = g2 k := by simpa using h 0 (by simp)
    have hrest : ∀ i, i < rest.length →
        g1 ((k + 1) + i) = g2 ((k + 1) + i) := by
      intro i hi
      have hs : k + (i + 1) = (k + 1) + i := by omega
      have := h (i + 1) (by simp; omega)
      rwa [hs] at this
    simp [gbmSteps, h0, ih _ (k + 1) hrest]

theorem gbmStepsAnti_congr (l : List F) :
    ∀ prev aprev k, (∀ i, i < l.length → g1 (k + i) = g2 (k + i)) →
      gbmStepsAnti exp sqrt P g1 prev aprev k l =
        gbmStepsAnti exp sqrt P g2 prev aprev k l := by
  induction l with
  | nil => intro prev aprev k h; rfl
  | cons dt rest ih =>
    intro prev aprev k h
    have h0 : g1 k = g2 k := by simpa using h 0 (by simp)
    have hrest : ∀ i, i < rest.length →
        g1 ((k + 1) + i) = g2 ((k + 1) + i) := by
      intro i hi
      have hs : k + (i + 1) = (k + 1) + i := by omega
      have := h (i + 1) (by simp; omega)
      rwa [hs] at this
    simp [gbmStepsAnti, h0, ih _ _ (k + 1) hrest]

variable (E : PricingEngine F) (T : List F) (anti : Bool)

theorem singleTrial_congr (k : ℕ)
    (h : ∀ i, i < (dts T).length → g1 (k + i) = g2 (k + i)) :
    singleTrial exp sqrt E T anti g1 k = singleTrial exp sqrt E T anti g2 k := by
  have hg := gbmSteps_congr exp sqrt E.path g1 g2 (dts T) E.path.S k h
  have hga := gbmStepsAnti_congr exp sqrt E.path g1 g2 (dts T)
    E.path.S E.path.S k h
  cases anti <;>
    simp [singleTrial, PathGenerator.generate,
      PathGenerator.generate_antithetic, hg, hga]

theorem runTrials_congr : ∀ (m k : ℕ),
    (∀ i, i < m * (dts T).length → g1 (k + i) = g2 (k + i)) →
      runTrials exp sqrt E T anti g1 m k =
        runTrials exp sqrt E T anti g2 m k := by
  intro m
  induction m with
  | zero => intro k h; rfl
  | succ n ih =>
    intro k h
    have hd : (dts T).length ≤ (n + 1) * (dts T).length := by
      have := Nat.mul_le_mul_right (dts T).length
        (Nat.succ_le_succ (Nat.zero_le n))
      simpa using this
    have hfirst : ∀ i, i < (dts T).length → g1 (k + i) = g2 (k + i) :=
      fun i hi => h i (lt_of_lt_of_le hi hd)
    have hs := singleTrial_congr exp sqrt g1 g2 E T anti k hfirst
    have hmul : (n + 1) * (dts T).length =
        n * (dts T).length + (dts T).length := Nat.succ_mul n (dts T).length
    have hrest : ∀ i, i < n * (dts T).length →
        g1 ((k + (dts T).length) + i) = g2 ((k + (dts T).length) + i) := by
      intro i hi
      have hkadd : k + ((dts T).length + i) = (k + (dts T).length) + i := by
        omega
      have := h ((dts T).length + i) (by omega)
      rwa [hkadd] at this
    have hpos1 := singleTrial_pos exp sqrt E T anti g1 k
    have hpos2 := singleTrial_pos exp sqrt E T anti g2 k
    simp only [runTrials, hs, hpos2, ih (k + (dts T).length) hrest]

end Determinism

/-- C9: two calls to `price` with identical arguments whose draw streams
agree on the consumed prefix (in particular, two calls against a random
source re-seeded identically) return identical results; `price` is a pure
function of the engine (payoff and path generator), the schedule, the
trial count, the antithetic flag and the draw stream, so no state other
than the stream position affects or is affected by a call. -/
theorem claim_C9_reproducibility {F : Type} [LinearOrderedField F]
    (exp sqrt : F → F) (E : PricingEngine F) (T : List F) (ntrials : ℕ)
    (anti : Bool) (g1 g2 : ℕ → F) (k : ℕ)
    (hagree : ∀ i, i < (ntrials / T.length) * (T.length - 1) →
      g1 (k + i) = g2 (k + i)) :
    E.price exp sqrt T ntrials anti g1 k =
      E.price exp sqrt T ntrials anti g2 k := by
  by_cases hlt : ntrials < T.length
  · simp only [PricingEngine.price]
    rw [if_pos hlt, if_pos hlt]
  · have hagree2 : ∀ i, i < (ntrials / T.length) * (dts T).length →
        g1 (k + i) = g2 (k + i) := by
      rw [dts_length]; exact hagree
    have hr := runTrials_congr exp sqrt g1 g2 E T anti
      (ntrials / T.length) k hagree2
    simp only [PricingEngine.price]
    rw [if_neg hlt, if_neg hlt, hr]

/-- Witness for C9: two streams that agree on the two consumed draws (and
differ beyond them) give identical results. -/
theorem claim_C9_witness :
    (∀ i, i < (4 / ([0, 1] : List ℚ).length) *
        (([0, 1] : List ℚ).length - 1) →
      (fun n => if n < 2 then (0 : ℚ) else 1) (0 + i) =
        (fun n => if n < 2 then (0 : ℚ) else 2) (0 + i)) ∧
    (PricingEngine.mk (AnyPayoff.vanilla (VanillaPayOff.mk 100 .Call))
      (PathGenerator.mk (100 : ℚ) (1/10) (1/100) (3/10))).price id id
        [0, 1] 4 true (fun n => if n < 2 then (0 : ℚ) else 1) 0 =
      (PricingEngine.mk (AnyPayoff.vanilla (VanillaPayOff.mk 100 .Call))
        (PathGenerator.mk (100 : ℚ) (1/10) (1/100) (3/10))).price id id
          [0, 1] 4 true (fun n => if n < 2 then (0 : ℚ) else 2) 0 :=
  ⟨fun i hi => by
      have hlt : i < 2 := by simpa using hi
      simp [hlt],
    claim_C9_reproducibility id id
      (PricingEngine.mk (AnyPayoff.vanilla (VanillaPayOff.mk 100 .Call))
        (PathGenerator.mk (100 : ℚ) (1/10) (1/100) (3/10)))
      [0, 1] 4 true (fun n => if n < 2 then (0 : ℚ) else 1)
      (fun n => if n < 2 then (0 : ℚ) else 2) 0
      (fun i hi => by
        have hlt : i < 2 := by simpa using hi
        simp [hlt])⟩
